import Mathlib

/-!
Verification of the controllerEditor rigging toolkit (core.py, utils.py).

The Python source is shallowly embedded: pure per-record computations become Lean
functions, the Maya scene graph becomes an explicit state record threaded through the
operations, host API calls (cmds.curve, cmds.setAttr, manipulator queries) become
oracle parameters, and Python exceptions become explicit failure flags or Option
results that preserve the state reached so far.  Numeric scene data (control points,
knots, matrix entries) is modelled with rationals; Maya color indices with integers.
-/

set_option autoImplicit false

/-- A 3D point (one control vertex), with rational coordinates. -/
structure Point3 where
  x : ℚ
  y : ℚ
  z : ℚ
deriving DecidableEq

/- ----------------------------------------------------------------------------
select_color (core.py lines 130-145)
---------------------------------------------------------------------------- -/

/-- One nurbsCurve shape of the scene as observed by select_color: its
overrideEnabled flag, its overrideColor index (cmds.getAttr on overrideColor always
returns an int, 0 when no override was ever set), and the name of its single parent
transform (cmds.listRelatives parent unpacking). -/
structure CurveShape where
  overrideEnabled : Bool
  overrideColor : Int
  parent : String
deriving DecidableEq

/-- Python equality between the int stored in overrideColor and the Optional int
argument color_index: in Python an int compares unequal to None, so the comparison
is false whenever color_index is None. -/
def pyIntEqOptInt (c : Int) : Option Int → Bool
  | none => false
  | some i => c == i

/-- select_color (core.py lines 130-145): scans every nurbsCurve shape of the scene
and returns the list handed to cmds.select.  A curve is kept when its
overrideEnabled flag equals the boolean (color_index is not None) and, per the
source, additionally its overrideColor is Python-equal to color_index; the parent
transform of each kept curve is collected in scene order. -/
def select_color (color_index : Option Int) (curves : List CurveShape) : List String :=
  let override_ : Bool := color_index.isSome
  (curves.filter (fun curve =>
      curve.overrideEnabled == override_ && pyIntEqOptInt curve.overrideColor color_index)).map
    (fun curve => curve.parent)

/-- The scene of the spec example: five curve shapes with override states
(True,3), (False,0), (True,3), (True,7), (False,0), under parents p1..p5. -/
def exampleCurves : List CurveShape :=
  [⟨true, 3, "p1"⟩, ⟨false, 0, "p2"⟩, ⟨true, 3, "p3"⟩, ⟨true, 7, "p4"⟩, ⟨false, 0, "p5"⟩]

/- ----------------------------------------------------------------------------
get_mirror_matrix (imported from .utils in core.py; not present in src/utils.py)
---------------------------------------------------------------------------- -/

/-- A 4x4 world transform matrix: rows xx..xw, yx..yw, zx..zw are the three basis
axes, tx..tw the translation row, as in the flat 16-number list of cmds.xform. -/
structure Matrix4 where
  xx : ℚ
  xy : ℚ
  xz : ℚ
  xw : ℚ
  yx : ℚ
  yy : ℚ
  yz : ℚ
  yw : ℚ
  zx : ℚ
  zy : ℚ
  zz : ℚ
  zw : ℚ
  tx : ℚ
  ty : ℚ
  tz : ℚ
  tw : ℚ
deriving DecidableEq

/-- Modelled from the spec: get_mirror_matrix is imported from .utils in core.py but
the function itself is missing from src/utils.py.  Per spec section 4.5
(MirrorMatrix), the transform matrix is reflected across the X symmetry plane:
the X-axis row and the X translation component are negated and every remaining
component is left unchanged. -/
def get_mirror_matrix (m : Matrix4) : Matrix4 :=
  { m with xx := -m.xx, xy := -m.xy, xz := -m.xz, xw := -m.xw, tx := -m.tx }

/- ----------------------------------------------------------------------------
chunk decorator (utils.py lines 18-34)
---------------------------------------------------------------------------- -/

/-- Events observable on the undo stack: opening a named undo chunk
(cmds.undoInfo openChunk), closing one (cmds.undoInfo closeChunk), or a scene
mutation performed by the wrapped operation body. -/
inductive ChunkEv (α : Type) where
  | openChunk (name : String)
  | closeChunk
  | body (e : α)
deriving DecidableEq

/-- Chunk.__enter__ (utils.py lines 23-24): opens a named undo chunk. -/
def Chunk_enter {α : Type} (name : String) : List (ChunkEv α) :=
  [ChunkEv.openChunk name]

/-- Chunk.__exit__ (utils.py lines 26-27): closes the undo chunk.  It ignores the
exception information and returns None, so a body exception propagates after the
chunk is closed. -/
def Chunk_exit {α : Type} : List (ChunkEv α) :=
  [ChunkEv.closeChunk]

/-- The chunk decorator (utils.py lines 29-34): runs the wrapped function inside a
with Chunk(...) block.  Python guarantees that __enter__ runs before the body and
that __exit__ runs on every exit path, including when the body raises; since
Chunk.__exit__ returns None the exception is not suppressed.  The wrapped function
is modelled by its observable behaviour: the trace of scene mutations it emits and
the exception it raises, if any. -/
def chunk {α ε : Type} (name : String) (func : List α × Option ε) :
    List (ChunkEv α) × Option ε :=
  (Chunk_enter name ++ func.1.map ChunkEv.body ++ Chunk_exit, func.2)

/- ----------------------------------------------------------------------------
reset_transform (core.py lines 310-332)
---------------------------------------------------------------------------- -/

/-- The nine transform channels reset first (core.py lines 313-317). -/
def trs_attrs : List String :=
  ["tx", "ty", "tz", "rx", "ry", "rz", "sx", "sy", "sz"]

/-- Observable effects of reset_transform: a successful cmds.setAttr writing the
default values of a plug, or a cmds.warning issued when that write raised. -/
inductive ResetEv where
  | setAttr (plug : String) (values : List ℚ)
  | warning (plug : String)
deriving DecidableEq

/-- The attribute loop of reset_transform (core.py lines 319-332).  The host is
modelled by two oracles: listDefault gives the result of
cmds.attributeQuery(attr, node, listDefault=True) (none when the query yields
None), and setAttrOk tells whether cmds.setAttr on the plug succeeds (a locked or
connected channel makes it raise, which the source catches and turns into a
warning before continuing with the next attribute). -/
def reset_transform_loop (transform : String) (listDefault : String → Option (List ℚ))
    (setAttrOk : String → Bool) : List String → List ResetEv
  | [] => []
  | attr :: rest =>
    let plug := transform ++ "." ++ attr
    match listDefault attr with
    | none => reset_transform_loop transform listDefault setAttrOk rest
    | some default_values =>
      (if setAttrOk plug then [ResetEv.setAttr plug default_values]
       else [ResetEv.warning plug])
        ++ reset_transform_loop transform listDefault setAttrOk rest

/-- reset_transform (core.py lines 310-332): iterates the nine transform channels
followed by the user-defined attributes (user_attrs models
cmds.listAttr(transform, userDefined=True) or list()). -/
def reset_transform (transform : String) (user_attrs : List String)
    (listDefault : String → Option (List ℚ)) (setAttrOk : String → Bool) :
    List ResetEv :=
  reset_transform_loop transform listDefault setAttrOk (trs_attrs ++ user_attrs)

/-- The per-attribute effect that C6 ascribes to reset_transform: skip when no
default is discoverable, one successful write when the plug is writable, one
warning when the write fails. -/
def reset_attr_effect (transform : String) (listDefault : String → Option (List ℚ))
    (setAttrOk : String → Bool) (attr : String) : List ResetEv :=
  let plug := transform ++ "." ++ attr
  match listDefault attr with
  | none => []
  | some default_values =>
    if setAttrOk plug then [ResetEv.setAttr plug default_values]
    else [ResetEv.warning plug]

/- ----------------------------------------------------------------------------
create_controller (core.py lines 7-72)
---------------------------------------------------------------------------- -/

/-- The host state consumed by create_controller: whether a node name already
exists in the scene, the current selection (cmds.ls sl=True long=True), the
active manipulator context, the position query of the manipulator of a context
(none models both a query yielding None and a falsy empty result), and whether
cmds.setAttr(plug, lock=True, keyable=False) succeeds on a plug. -/
structure Host where
  objExists : String → Bool
  selection : List String
  activeContext : String
  manipPosition : String → Option Point3
  lockOk : String → Bool

/-- Scene mutations and log output performed by create_controller, in order. -/
inductive CtlEv where
  | warning (msg : String)
  | group (name : String)
  | circle (name : String)
  | setOverrideEnabled (shape : String) (value : Bool)
  | setOverrideColor (shape : String) (value : Int)
  | parentTo (child par : String)
  | joint (name : String)
  | xformTranslation (node : String) (t : Point3)
  | matchTransform (node reference : String)
  | lockAttr (plug : String)
  | select (nodes : List String)
deriving DecidableEq

/-- The gizmo block of create_controller (core.py lines 27-36): for the three
recognized manipulator contexts the position is queried from the host; any other
context produces a warning and position None. -/
def gizmo_position (host : Host) : List CtlEv × Option Point3 :=
  if host.activeContext == "RotateSuperContext"
      || host.activeContext == "moveSuperContext"
      || host.activeContext == "scaleSuperContext" then
    ([], host.manipPosition host.activeContext)
  else
    ([CtlEv.warning ("Unable to find position for context " ++ host.activeContext)], none)

/-- The lock-attrs loop of create_controller (core.py lines 67-70): each attribute
of lock_attrs is locked with cmds.setAttr(plug, lock=True, keyable=False).  The
loop body has no try/except, so a failing setAttr raises out of the loop: the
events emitted so far are kept and the exception propagates. -/
def lock_loop (host : Host) (ctl : String) : List String → List CtlEv × Option String
  | [] => ([], none)
  | attr :: rest =>
    let plug := ctl ++ "." ++ attr
    if host.lockOk plug then
      let res := lock_loop host ctl rest
      (CtlEv.lockAttr plug :: res.1, res.2)
    else
      ([], some ("setAttr failed on " ++ plug))

/-- create_controller (core.py lines 7-72), modelled as the ordered trace of scene
mutations it performs plus the exception it raises, if any.  An empty name is
falsy in Python and is replaced by the name default; then the ctl and bfr name
collisions raise; the gizmo position is resolved (a falsy position becomes the
origin); the buffer group and the circle control are created, the control shape
(the single nurbsCurve shape of the fresh circle) gets the highlight color
override, the control is parented under the buffer; optionally a joint is created
under the selected control; the buffer is snapped to the first previously
selected item (translation only for a component, matchTransform for a node); the
requested attributes are locked; finally the buffer is selected. -/
def create_controller (host : Host) (name : String) (with_joint : Bool)
    (lock_attrs : List String) (suffix : String) : List CtlEv × Option String :=
  let name := if name = "" then "default" else name
  let ctl_name := name ++ suffix
  if host.objExists ctl_name then
    ([], some ("Ctl name " ++ ctl_name ++ " already exists"))
  else
    let bfr_name := name ++ "_bfr"
    if host.objExists bfr_name then
      ([], some ("Bfr name " ++ bfr_name ++ " already exists"))
    else
      let selection := host.selection
      let gizmo := gizmo_position host
      let position := gizmo.2.getD ⟨0, 0, 0⟩
      let bfr := bfr_name
      let ctl := ctl_name
      let ctl_shape := ctl ++ "Shape"
      let ctrl_evs : List CtlEv :=
        [CtlEv.group bfr_name, CtlEv.circle ctl_name,
         CtlEv.setOverrideEnabled ctl_shape true, CtlEv.setOverrideColor ctl_shape 17,
         CtlEv.parentTo ctl bfr]
      let joint_evs : List CtlEv :=
        if with_joint then [CtlEv.select [ctl], CtlEv.joint (name ++ "_jnt")] else []
      let snap_evs : List CtlEv :=
        match selection with
        | [] => []
        | reference :: _ =>
          if reference.contains '.' then [CtlEv.xformTranslation bfr position]
          else [CtlEv.matchTransform bfr reference]
      let locks := lock_loop host ctl lock_attrs
      match locks.2 with
      | some e => (gizmo.1 ++ ctrl_evs ++ joint_evs ++ snap_evs ++ locks.1, some e)
      | none =>
        (gizmo.1 ++ ctrl_evs ++ joint_evs ++ snap_evs ++ locks.1 ++ [CtlEv.select [bfr]],
         none)

/-- Recognizer of attribute-lock events, used to isolate the locks performed by a
create_controller run. -/
def isLockEv : CtlEv → Bool
  | CtlEv.lockAttr _ => true
  | _ => false

/-- A host on which every name is free, the move manipulator is active, nothing is
selected, and locking succeeds on every plug except default_ctl.ry. -/
def lockFailHost : Host :=
  { objExists := fun _ => false
    selection := []
    activeContext := "moveSuperContext"
    manipPosition := fun _ => some ⟨0, 0, 0⟩
    lockOk := fun plug => plug != "default_ctl.ry" }

/- ----------------------------------------------------------------------------
Theorems for C2, C8, C7, C6
---------------------------------------------------------------------------- -/

lemma reset_transform_loop_eq_flatMap (transform : String)
    (listDefault : String → Option (List ℚ)) (setAttrOk : String → Bool) :
    ∀ attrs : List String,
      reset_transform_loop transform listDefault setAttrOk attrs
        = attrs.flatMap (reset_attr_effect transform listDefault setAttrOk) := by
  intro attrs
  induction attrs with
  | nil => rfl
  | cons attr rest ih =>
    simp only [reset_transform_loop, reset_attr_effect, List.flatMap_cons]
    cases listDefault attr with
    | none => simpa using ih
    | some v => rw [ih]

lemma count_openChunk_map_body {α : Type} [DecidableEq α] (name : String) :
    ∀ l : List α, (l.map ChunkEv.body).count (ChunkEv.openChunk name) = 0 := by
  intro l
  rw [List.count_eq_zero]
  intro h
  rcases List.mem_map.mp h with ⟨a, _, ha⟩
  exact ChunkEv.noConfusion ha

lemma count_closeChunk_map_body {α : Type} [DecidableEq α] :
    ∀ l : List α, (l.map ChunkEv.body).count (ChunkEv.closeChunk) = 0 := by
  intro l
  rw [List.count_eq_zero]
  intro h
  rcases List.mem_map.mp h with ⟨a, _, ha⟩
  exact ChunkEv.noConfusion ha

/-- C2: select_color with a concrete color index selects exactly the parents of the
matching override-enabled shapes, but querying None selects nothing at all: the
source compares the int overrideColor to None, which is always false in Python, so
the override-disabled shapes can never be selected.  On the five example shapes,
index 3 yields the two matching parents as the claim states, while None yields []
instead of the two parents of the override-disabled shapes. -/
theorem select_color_none_selects_nothing :
    select_color (some 3) exampleCurves = ["p1", "p3"]
      ∧ select_color none exampleCurves = []
      ∧ (∀ curves : List CurveShape, select_color none curves = []) := by
  refine ⟨by decide, by decide, ?_⟩
  intro curves
  induction curves with
  | nil => rfl
  | cons c rest ih =>
    simp only [select_color, pyIntEqOptInt, Option.isSome_none, Bool.and_false,
      List.filter_cons] at ih ⊢
    exact ih

/-- C8: MirrorMatrix is an involution: applying get_mirror_matrix twice returns the
original matrix, a single application negating only the X-axis components and
leaving all remaining components unchanged. -/
theorem get_mirror_matrix_involution (m : Matrix4) :
    get_mirror_matrix (get_mirror_matrix m) = m := by
  simp [get_mirror_matrix]

/-- C7: for every wrapped operation body (its mutation trace and optional raised
exception), the chunk decorator opens exactly one undo chunk, opens it before the
first mutation of the body, and closes it on every exit path: the close event is
last in the trace whether or not the body raised, and the body's exception still
propagates. -/
theorem chunk_opens_once_closes_on_all_paths {α ε : Type} [DecidableEq α]
    (name : String) (body : List α) (err : Option ε) :
    (chunk name (body, err)).1.count (ChunkEv.openChunk name) = 1
      ∧ (chunk name (body, err)).1.head? = some (ChunkEv.openChunk name)
      ∧ (chunk name (body, err)).1.getLast? = some ChunkEv.closeChunk
      ∧ (chunk name (body, err)).1.count (ChunkEv.closeChunk (α := α)) = 1
      ∧ (chunk name (body, err)).2 = err := by
  refine ⟨?_, ?_, ?_, ?_, rfl⟩
  · simp [chunk, Chunk_enter, Chunk_exit, List.count_append,
      count_openChunk_map_body name body]
  · simp [chunk, Chunk_enter]
  · have h : (chunk name (body, err)).1
        = (ChunkEv.openChunk name :: body.map ChunkEv.body) ++ [ChunkEv.closeChunk] := by
      simp [chunk, Chunk_enter, Chunk_exit]
    rw [h, List.getLast?_append]
    rfl
  · simp [chunk, Chunk_enter, Chunk_exit, List.count_append,
      count_closeChunk_map_body (α := α) body]

lemma lock_loop_append_fail (host : Host) (ctl : String) (attr : String)
    (post : List String) :
    ∀ pre : List String,
      (∀ a ∈ pre, host.lockOk (ctl ++ "." ++ a) = true) →
      host.lockOk (ctl ++ "." ++ attr) = false →
      lock_loop host ctl (pre ++ attr :: post)
        = (pre.map (fun a => CtlEv.lockAttr (ctl ++ "." ++ a)),
           some ("setAttr failed on " ++ (ctl ++ "." ++ attr))) := by
  intro pre
  induction pre with
  | nil =>
    intro _ hfail
    simp [lock_loop, hfail]
  | cons a rest ih =>
    intro hpre hfail
    have ha : host.lockOk (ctl ++ "." ++ a) = true := hpre a (by simp)
    have hrest : ∀ b ∈ rest, host.lockOk (ctl ++ "." ++ b) = true := by
      intro b hb
      exact hpre b (by simp [hb])
    simp [lock_loop, ha, ih hrest hfail]

lemma gizmo_position_no_lock (host : Host) :
    (gizmo_position host).1.filter isLockEv = [] := by
  unfold gizmo_position
  split <;> rfl

lemma joint_evs_no_lock (b : Bool) (ctl nm : String) :
    (if b then [CtlEv.select [ctl], CtlEv.joint nm] else []).filter isLockEv = [] := by
  cases b <;> rfl

lemma snap_evs_no_lock (sel : List String) (bfr : String) (p : Point3) :
    (match sel with
      | [] => ([] : List CtlEv)
      | reference :: _ =>
        if reference.contains '.' then [CtlEv.xformTranslation bfr p]
        else [CtlEv.matchTransform bfr reference]).filter isLockEv = [] := by
  cases sel with
  | nil => rfl
  | cons r rest => cases hc : r.contains '.' <;> simp [hc, isLockEv]

lemma filter_isLockEv_map_lock (plug : String → String) (attrs : List String) :
    (attrs.map (fun a => CtlEv.lockAttr (plug a))).filter isLockEv
      = attrs.map (fun a => CtlEv.lockAttr (plug a)) := by
  rw [List.filter_eq_self]
  intro e he
  rcases List.mem_map.mp he with ⟨a, _, rfl⟩
  rfl

/-- C6: reset_transform processes the whole attribute list tx..sz followed by the
user attributes, each attribute independently: an attribute whose default query
yields None contributes nothing (skipped without error), a writable attribute
contributes its write, a failing write contributes exactly a warning, and the
events of every attribute appear regardless of the failures of the attributes
before it. -/
theorem reset_transform_processes_every_attr (transform : String)
    (user_attrs : List String) (listDefault : String → Option (List ℚ))
    (setAttrOk : String → Bool) :
    reset_transform transform user_attrs listDefault setAttrOk
      = (trs_attrs ++ user_attrs).flatMap
          (reset_attr_effect transform listDefault setAttrOk) := by
  exact reset_transform_loop_eq_flatMap transform listDefault setAttrOk
    (trs_attrs ++ user_attrs)

/-- C3 counterexample: on a host where every name is free and locking fails only on
default_ctl.ry, create_controller with lock_attrs rx, ry, rz raises (the failure
is fatal, not merely logged) and the remaining attribute rz is never locked,
while rx before the failure was locked. -/
theorem create_controller_lock_failure_is_fatal :
    (create_controller lockFailHost "default" false ["rx", "ry", "rz"] "_ctl").2
        = some "setAttr failed on default_ctl.ry"
      ∧ CtlEv.lockAttr "default_ctl.rz"
          ∉ (create_controller lockFailHost "default" false ["rx", "ry", "rz"] "_ctl").1
      ∧ CtlEv.lockAttr "default_ctl.rx"
          ∈ (create_controller lockFailHost "default" false ["rx", "ry", "rz"] "_ctl").1 := by
  refine ⟨by decide, by decide, by decide⟩

/-- C3 amended: the locks of create_controller are applied in order and are not
independent: when locking one attribute fails, the exception propagates (the
operation aborts with an error), the attributes before the failing one are locked
and the attributes after it are not: the lock events of the trace are exactly
those of the successful prefix. -/
theorem create_controller_lock_failure_aborts_rest (host : Host) (name : String)
    (with_joint : Bool) (suffix : String) (pre : List String) (attr : String)
    (post : List String)
    (hctl : host.objExists ((if name = "" then "default" else name) ++ suffix) = false)
    (hbfr : host.objExists ((if name = "" then "default" else name) ++ "_bfr") = false)
    (hpre : ∀ a ∈ pre,
      host.lockOk ((if name = "" then "default" else name) ++ suffix ++ "." ++ a) = true)
    (hfail : host.lockOk
      ((if name = "" then "default" else name) ++ suffix ++ "." ++ attr) = false) :
    (create_controller host name with_joint (pre ++ attr :: post) suffix).2
        = some ("setAttr failed on "
            ++ ((if name = "" then "default" else name) ++ suffix ++ "." ++ attr))
      ∧ (create_controller host name with_joint (pre ++ attr :: post) suffix).1.filter
            isLockEv
        = pre.map (fun a =>
            CtlEv.lockAttr ((if name = "" then "default" else name) ++ suffix ++ "." ++ a)) := by
  have hlock := lock_loop_append_fail host
    ((if name = "" then "default" else name) ++ suffix) attr post pre hpre hfail
  simp only [create_controller, hctl, hbfr, Bool.false_eq_true, if_false, hlock]
  refine ⟨trivial, ?_⟩
  simp only [List.filter_append, gizmo_position_no_lock, joint_evs_no_lock,
    snap_evs_no_lock, filter_isLockEv_map_lock]
  rfl

/-- Witness for the amended C3 theorem at a concrete input: host lockFailHost,
name default, suffix _ctl, attributes rx, ry, rz with the failure on ry. -/
theorem create_controller_lock_failure_aborts_rest_witness :
    lockFailHost.objExists ((if "default" = "" then "default" else "default") ++ "_ctl")
        = false
      ∧ (∀ a ∈ ["rx"], lockFailHost.lockOk
          ((if "default" = "" then "default" else "default") ++ "_ctl" ++ "." ++ a) = true)
      ∧ lockFailHost.lockOk
          ((if "default" = "" then "default" else "default") ++ "_ctl" ++ "." ++ "ry")
          = false
      ∧ ((create_controller lockFailHost "default" false (["rx"] ++ "ry" :: ["rz"]) "_ctl").2
          = some ("setAttr failed on "
              ++ ((if "default" = "" then "default" else "default") ++ "_ctl" ++ "." ++ "ry"))
        ∧ (create_controller lockFailHost "default" false (["rx"] ++ "ry" :: ["rz"]) "_ctl").1.filter
              isLockEv
          = ["rx"].map (fun a =>
              CtlEv.lockAttr
                ((if "default" = "" then "default" else "default") ++ "_ctl" ++ "." ++ a))) :=
  ⟨by decide, by decide, by decide,
    create_controller_lock_failure_aborts_rest lockFailHost "default" false "_ctl"
      ["rx"] "ry" ["rz"] (by decide) (by decide) (by decide) (by decide)⟩

/-- C10: create_controller called with the empty (falsy) name behaves exactly as if
the name were default: the whole run, including the collision checks, the created
buffer and control, and the optional joint, is identical to the run with the name
default, for every host state and every other argument. -/
theorem create_controller_empty_name_is_default (host : Host) (with_joint : Bool)
    (lock_attrs : List String) (suffix : String) :
    create_controller host "" with_joint lock_attrs suffix
      = create_controller host "default" with_joint lock_attrs suffix := by
  have h : ((if ("" : String) = "" then "default" else "") : String) = "default" := by
    decide
  simp only [create_controller, h, ite_self, if_true]

/- ----------------------------------------------------------------------------
set_shapes_data (core.py lines 219-272) and its helpers
---------------------------------------------------------------------------- -/

/-- One shape record as produced by get_shapes_data and consumed by
set_shapes_data: polynomial degree, the form attribute (0 open; a positive value
marks the closed or periodic form, which set_shapes_data treats as periodic via
form greater than 0), the control points and the knot vector. -/
structure ShapeData where
  degree : Nat
  form : Int
  point : List Point3
  knot : List ℚ
deriving DecidableEq

/-- The argument tuple passed to cmds.curve in set_shapes_data: the periodic flag,
the (possibly extended) point list, the degree and the knot vector. -/
structure CurveGeom where
  periodic : Bool
  point : List Point3
  degree : Nat
  knot : List ℚ
deriving DecidableEq

/-- The periodic extension loop of set_shapes_data (core.py lines 231-232):
for index in range(degree): points.append(points[index]).  Each step reads the
growing list at index and appends that element; reading past the end raises
(modelled as none), which can only happen when the original list is empty and the
degree is positive. -/
def append_self : List Point3 → Nat → Nat → Option (List Point3)
  | pts, _, 0 => some pts
  | pts, idx, fuel + 1 =>
    match pts.get? idx with
    | none => none
    | some p => append_self (pts ++ [p]) (idx + 1) fuel

/-- Point preparation of one record in set_shapes_data (core.py lines 225-232):
the record's point list is copied (a value copy here), and when form marks the
curve periodic the first degree points are appended by the self-append loop. -/
def build_points (shape_data : ShapeData) : Option (List Point3) :=
  let points := shape_data.point
  if 0 < shape_data.form then append_self points 0 shape_data.degree
  else some points

/-- The full cmds.curve argument tuple built for one record (core.py lines
225-239): periodic flag from form greater than 0, prepared points, degree, knots. -/
def curve_args (shape_data : ShapeData) : Option CurveGeom :=
  (build_points shape_data).map
    (fun points =>
      ⟨decide (0 < shape_data.form), points, shape_data.degree, shape_data.knot⟩)

/-- A nurbsCurve shape node of the scene: its node identity, the identity of its
parent transform, its color override state, its name and its geometry. -/
structure SceneShape where
  id : Nat
  parent : Nat
  overrideEnabled : Bool
  overrideColor : Int
  name : String
  geom : CurveGeom
deriving DecidableEq

/-- The scene as touched by set_shapes_data: the curve shape nodes in scene order
and the next free node identity (Maya keeps node identities unique; fresh nodes
take identities from nextId). -/
structure Scene where
  shapes : List SceneShape
  nextId : Nat
deriving DecidableEq

/-- cmds.delete on a shape node (core.py line 253): removes it from the scene. -/
def delete_shape (scene : Scene) (shapeId : Nat) : Scene :=
  { scene with shapes := scene.shapes.filter (fun s => s.id != shapeId) }

/-- cmds.rename of a shape node (core.py line 264). -/
def rename_shape (scene : Scene) (shapeId : Nat) (newName : String) : Scene :=
  { scene with shapes := scene.shapes.map (fun s =>
      if s.id == shapeId then { s with name := newName } else s) }

/-- cmds.parent with relative and shape flags (core.py line 270): moves the shape
under the control transform, leaving everything else unchanged. -/
def parent_shape (scene : Scene) (shapeId : Nat) (newParent : Nat) : Scene :=
  { scene with shapes := scene.shapes.map (fun s =>
      if s.id == shapeId then { s with parent := newParent } else s) }

/-- cmds.delete on a transform (core.py line 272): deletes the transform together
with any shape still parented under it. -/
def delete_transform (scene : Scene) (t : Nat) : Scene :=
  { scene with shapes := scene.shapes.filter (fun s => s.parent != t) }

/-- set_color (core.py lines 147-164) applied to a nurbsCurve shape node, the
isAType nurbsCurve branch taken when set_shapes_data calls it on a new shape:
None disables the override and resets the color to 0, an index enables the
override and stores the index. -/
def set_color_shape (scene : Scene) (shapeId : Nat) (color_index : Option Int) :
    Scene :=
  { scene with shapes := scene.shapes.map (fun s =>
      if s.id == shapeId then
        match color_index with
        | none => { s with overrideEnabled := false, overrideColor := 0 }
        | some c => { s with overrideEnabled := true, overrideColor := c }
      else s) }

/-- The create phase of set_shapes_data (core.py lines 222-240): for each record
the cmds.curve arguments are prepared and the curve is constructed, collecting
the new curve transforms in order.  The host constructor is modelled by the
curveOk oracle: when it rejects the arguments cmds.curve raises, the loop aborts
and the scene built so far is kept (third component false).  Each successful
construction creates a fresh transform (identity nextId) holding one fresh shape
(identity nextId + 1) with no color override. -/
def create_loop (curveOk : CurveGeom → Bool) :
    Scene → List ShapeData → Scene × List Nat × Bool
  | scene, [] => (scene, [], true)
  | scene, shape_data :: rest =>
    match curve_args shape_data with
    | none => (scene, [], false)
    | some geom =>
      if curveOk geom then
        let t := scene.nextId
        let new_shape : SceneShape :=
          ⟨scene.nextId + 1, t, false, 0, "curveShape" ++ toString (scene.nextId + 1),
            geom⟩
        let res := create_loop curveOk ⟨scene.shapes ++ [new_shape], scene.nextId + 2⟩ rest
        (res.1, t :: res.2.1, res.2.2)
      else (scene, [], false)

/-- The remove phase of set_shapes_data (core.py lines 242-253): for each existing
shape of the control, its color override state is captured (None when the
override is disabled) and then the shape is deleted. -/
def remove_loop : Scene → List SceneShape → Scene × List (Option Int)
  | scene, [] => (scene, [])
  | scene, old_shape :: rest =>
    let old_color : Option Int :=
      if old_shape.overrideEnabled then some old_shape.overrideColor else none
    let res := remove_loop (delete_shape scene old_shape.id) rest
    (res.1, old_color :: res.2)

/-- The replace phase of set_shapes_data (core.py lines 255-272): each new curve
transform is visited with its index; its single shape is unpacked (a
non-singleton unpacking raises, modelled as false), renamed to the control's
shape name, given the positionally matching captured color when one exists,
parented under the control, and the now empty curve transform is deleted. -/
def replace_loop (ctrlId : Nat) (ctrlName : String) (old_colors : List (Option Int)) :
    Scene → List Nat → Nat → Scene × Bool
  | scene, [], _ => (scene, true)
  | scene, new_curve :: rest, index =>
    match scene.shapes.filter (fun s => s.parent == new_curve) with
    | [new_shape] =>
      let new_shape_name :=
        if index > 0 then ctrlName ++ "Shape" ++ toString index else ctrlName ++ "Shape"
      let scene1 := rename_shape scene new_shape.id new_shape_name
      let scene2 :=
        match old_colors.get? index with
        | some old_color => set_color_shape scene1 new_shape.id old_color
        | none => scene1
      let scene3 := parent_shape scene2 new_shape.id ctrlId
      let scene4 := delete_transform scene3 new_curve
      replace_loop ctrlId ctrlName old_colors scene4 rest (index + 1)
    | _ => (scene, false)

/-- set_shapes_data (core.py lines 219-272): all new curves are constructed first;
only then are the control's existing shapes enumerated, their colors captured and
the shapes deleted; finally the new shapes are renamed, colored positionally,
reparented under the control and their temporary transforms deleted.  The control
is identified by its node identity ctrlId and its base name ctrlName (the last
path component used for the shape renames).  The boolean result is false when a
step raised; the scene reached so far is returned either way. -/
def set_shapes_data (curveOk : CurveGeom → Bool) (ctrlId : Nat) (ctrlName : String)
    (shapes_data : List ShapeData) (scene : Scene) : Scene × Bool :=
  let created := create_loop curveOk scene shapes_data
  if created.2.2 then
    let old_shapes := created.1.shapes.filter (fun s => s.parent == ctrlId)
    let removed := remove_loop created.1 old_shapes
    replace_loop ctrlId ctrlName removed.2 removed.1 created.2.1 0
  else (created.1, false)

lemma append_self_of_le : ∀ (fuel idx : Nat) (pts : List Point3),
    idx + fuel ≤ pts.length →
    append_self pts idx fuel = some (pts ++ (pts.drop idx).take fuel) := by
  intro fuel
  induction fuel with
  | zero =>
    intro idx pts _
    simp [append_self]
  | succ fuel ih =>
    intro idx pts h
    have hidx : idx < pts.length := by omega
    have hget : pts.get? idx = some (pts.get ⟨idx, hidx⟩) := List.get?_eq_get hidx
    simp only [append_self, hget]
    have hlen : (idx + 1) + fuel ≤ (pts ++ [pts.get ⟨idx, hidx⟩]).length := by
      simp
      omega
    rw [ih (idx + 1) (pts ++ [pts.get ⟨idx, hidx⟩]) hlen]
    have hdrop : (pts ++ [pts.get ⟨idx, hidx⟩]).drop (idx + 1)
        = pts.drop (idx + 1) ++ [pts.get ⟨idx, hidx⟩] := by
      rw [List.drop_append_eq_append_drop]
      have h0 : idx + 1 - pts.length = 0 := by omega
      rw [h0]
      rfl
    have htake : (pts.drop (idx + 1) ++ [pts.get ⟨idx, hidx⟩]).take fuel
        = (pts.drop (idx + 1)).take fuel := by
      rw [List.take_append_eq_append_take]
      have h0 : fuel - (pts.drop (idx + 1)).length = 0 := by
        simp only [List.length_drop]
        omega
      rw [h0]
      simp
    have hcons : pts.drop idx = pts.get ⟨idx, hidx⟩ :: pts.drop (idx + 1) := by
      rw [List.drop_eq_getElem_cons hidx]
      rfl
    rw [hdrop, htake, hcons, List.take_succ_cons]
    simp

/-- C4: for every record whose form marks the curve periodic (form greater than 0,
the source's convention) and whose point list is at least degree long (the
B-spline sizing invariant of well-formed records), the cmds.curve call receives
the record's point sequence extended by its first degree points, with the
periodic flag set; for every non-periodic record the points are passed as-is with
the flag unset; in both cases the curve is built from exactly (points, degree,
knots, periodic flag). -/
theorem curve_args_periodic_extension (d : ShapeData) :
    (0 < d.form → d.degree ≤ d.point.length →
      curve_args d = some ⟨true, d.point ++ d.point.take d.degree, d.degree, d.knot⟩)
    ∧ (d.form ≤ 0 →
      curve_args d = some ⟨false, d.point, d.degree, d.knot⟩) := by
  constructor
  · intro hform hdeg
    have hfb : decide (0 < d.form) = true := by simpa using hform
    have h0 : (0 : Nat) + d.degree ≤ d.point.length := by omega
    simp [curve_args, build_points, hform, append_self_of_le d.degree 0 d.point h0, hfb]
  · intro hform
    have hnot : ¬ (0 < d.form) := by omega
    have hfb : decide (0 < d.form) = false := by simpa using hnot
    simp [curve_args, build_points, hnot, hfb]

/-- A periodic record (form 2, degree 2, four points) for the C4 witness. -/
def wd1 : ShapeData :=
  ⟨2, 2, [⟨0, 0, 0⟩, ⟨1, 0, 0⟩, ⟨2, 0, 0⟩, ⟨3, 0, 0⟩], [0, 0, 0, 1, 1, 1]⟩

/-- An open record (form 0, degree 3, two points) for the C4 witness. -/
def wd2 : ShapeData := ⟨3, 0, [⟨0, 0, 0⟩, ⟨1, 0, 0⟩], [0, 1]⟩

/-- Witness for C4 at the concrete records wd1 (periodic) and wd2 (open). -/
theorem curve_args_periodic_extension_witness :
    (0 < wd1.form ∧ wd1.degree ≤ wd1.point.length
      ∧ curve_args wd1
        = some ⟨true, wd1.point ++ wd1.point.take wd1.degree, wd1.degree, wd1.knot⟩)
    ∧ (wd2.form ≤ 0 ∧ curve_args wd2 = some ⟨false, wd2.point, wd2.degree, wd2.knot⟩) :=
  ⟨⟨by decide, by decide, (curve_args_periodic_extension wd1).1 (by decide) (by decide)⟩,
    ⟨by decide, (curve_args_periodic_extension wd2).2 (by decide)⟩⟩

lemma create_loop_appends (curveOk : CurveGeom → Bool) :
    ∀ (datas : List ShapeData) (scene : Scene),
      ∃ added, (create_loop curveOk scene datas).1.shapes = scene.shapes ++ added := by
  intro datas
  induction datas with
  | nil =>
    intro scene
    exact ⟨[], by simp [create_loop]⟩
  | cons d rest ih =>
    intro scene
    simp only [create_loop]
    cases hca : curve_args d with
    | none => exact ⟨[], by simp⟩
    | some geom =>
      by_cases hok : curveOk geom
      · simp only [hok, if_true]
        obtain ⟨added, hadd⟩ := ih
          ⟨scene.shapes ++ [⟨scene.nextId + 1, scene.nextId, false, 0,
            "curveShape" ++ toString (scene.nextId + 1), geom⟩], scene.nextId + 2⟩
        exact ⟨_ :: added, by simpa using hadd⟩
      · simp [hok]

/-- C1: when the construction of any record's curve fails during the create phase
of set_shapes_data (the host constructor raising on one of the records, e.g. the
second of three), the whole operation raises with the create phase, before the
remove phase runs: the resulting scene still contains every original shape of
the whole scene, the target included, unchanged and in order (the create phase
only appended fresh curve transforms). -/
theorem set_shapes_data_construct_before_destroy (curveOk : CurveGeom → Bool)
    (ctrlId : Nat) (ctrlName : String) (shapes_data : List ShapeData) (scene : Scene)
    (hfail : (create_loop curveOk scene shapes_data).2.2 = false) :
    (set_shapes_data curveOk ctrlId ctrlName shapes_data scene).2 = false
      ∧ (∃ added, (set_shapes_data curveOk ctrlId ctrlName shapes_data scene).1.shapes
          = scene.shapes ++ added)
      ∧ ∀ s ∈ scene.shapes,
          s ∈ (set_shapes_data curveOk ctrlId ctrlName shapes_data scene).1.shapes := by
  have hres : set_shapes_data curveOk ctrlId ctrlName shapes_data scene
      = ((create_loop curveOk scene shapes_data).1, false) := by
    simp [set_shapes_data, hfail]
  obtain ⟨added, hadd⟩ := create_loop_appends curveOk shapes_data scene
  refine ⟨by rw [hres], ⟨added, by rw [hres, hadd]⟩, ?_⟩
  intro s hs
  rw [hres]
  simp only [hadd]
  exact List.mem_append_left added hs

/-- A scene for the C1 witness: the control transform has identity 0 and owns two
shapes (identities 1 and 2), plus one unrelated shape under transform 5. -/
def wscene1 : Scene :=
  ⟨[⟨1, 0, true, 6, "ctlShape", ⟨false, [⟨0, 0, 0⟩], 1, [0]⟩⟩,
    ⟨2, 0, false, 0, "ctlShape1", ⟨false, [⟨1, 0, 0⟩], 1, [0]⟩⟩,
    ⟨6, 5, true, 13, "otherShape", ⟨false, [⟨2, 0, 0⟩], 1, [0]⟩⟩], 10⟩

/-- A constructor oracle that accepts only curves with at least two points, so the
one-point records of the witness fail construction. -/
def failOnSecond : CurveGeom → Bool :=
  fun geom => 2 ≤ geom.point.length

/-- Records for the C1 witness: the first constructs, the second fails. -/
def wdatas1 : List ShapeData :=
  [⟨1, 0, [⟨0, 0, 0⟩, ⟨1, 0, 0⟩], [0, 1]⟩, ⟨1, 0, [⟨4, 0, 0⟩], [0]⟩,
   ⟨1, 0, [⟨5, 0, 0⟩, ⟨6, 0, 0⟩], [0, 1]⟩]

/-- Witness for C1: on wscene1, construction fails on the second of three records
and every original shape survives. -/
theorem set_shapes_data_construct_before_destroy_witness :
    (create_loop failOnSecond wscene1 wdatas1).2.2 = false
      ∧ ((set_shapes_data failOnSecond 0 "ctl" wdatas1 wscene1).2 = false
        ∧ (∃ added, (set_shapes_data failOnSecond 0 "ctl" wdatas1 wscene1).1.shapes
            = wscene1.shapes ++ added)
        ∧ ∀ s ∈ wscene1.shapes,
            s ∈ (set_shapes_data failOnSecond 0 "ctl" wdatas1 wscene1).1.shapes) :=
  ⟨by decide,
    set_shapes_data_construct_before_destroy failOnSecond 0 "ctl" wdatas1 wscene1
      (by decide)⟩

/- ----------------------------------------------------------------------------
C5 supporting definitions: deterministic characterizations of the three phases
---------------------------------------------------------------------------- -/

/-- The color capture of the remove phase (core.py lines 246-251): the stored
index when the override is enabled, None otherwise. -/
def capture_color (s : SceneShape) : Option Int :=
  if s.overrideEnabled then some s.overrideColor else none

/-- The override state a fresh default shape ends with after set_color restores a
captured color state onto it: None disables (override off, color 0), an index
enables the override with that index. -/
def restore_state : Option Int → Bool × Int
  | none => (false, 0)
  | some c => (true, c)

/-- The observable color override state of a shape. -/
def colorState (s : SceneShape) : Bool × Int :=
  (s.overrideEnabled, s.overrideColor)

/-- Scene well-formedness for a control transform: the control and all shape
identities and parents are below the identity counter, and shape identities are
unique (Maya guarantees distinct node identities). -/
def SceneWF (scene : Scene) (ctrlId : Nat) : Prop :=
  ctrlId < scene.nextId
    ∧ (∀ s ∈ scene.shapes, s.id < scene.nextId ∧ s.parent < scene.nextId)
    ∧ (scene.shapes.map (fun s => s.id)).Nodup

/-- The curve transform identities allocated by a successful create phase
starting at identity counter m: m, m + 2, m + 4, and so on. -/
def createdCurves (m : Nat) : Nat → List Nat
  | 0 => []
  | n + 1 => m :: createdCurves (m + 2) n

/-- The fresh shapes allocated by a successful create phase starting at identity
counter m, one per constructed geometry, with default color state. -/
def createdShapes (m : Nat) : List CurveGeom → List SceneShape
  | [] => []
  | g :: gs =>
    ⟨m + 1, m, false, 0, "curveShape" ++ toString (m + 1), g⟩ :: createdShapes (m + 2) gs

/-- The cmds.curve argument tuples of all records, when every record prepares. -/
def curve_args_list : List ShapeData → Option (List CurveGeom)
  | [] => some []
  | d :: rest =>
    match curve_args d, curve_args_list rest with
    | some g, some gs => some (g :: gs)
    | _, _ => none

/-- The shapes of the control after a successful replace phase visiting the
geometries gs from loop index and identity counter m: each gets the control as
parent, the deterministic name, and the positionally captured color state (the
default state when no captured color exists at its index). -/
def finalShapes (ctrlId : Nat) (ctrlName : String) (old_colors : List (Option Int)) :
    Nat → Nat → List CurveGeom → List SceneShape
  | _, _, [] => []
  | index, m, g :: gs =>
    let nm :=
      if index > 0 then ctrlName ++ "Shape" ++ toString index else ctrlName ++ "Shape"
    let st : Bool × Int :=
      match old_colors.get? index with
      | some oc => restore_state oc
      | none => (false, 0)
    ⟨m + 1, ctrlId, st.1, st.2, nm, g⟩
      :: finalShapes ctrlId ctrlName old_colors (index + 1) (m + 2) gs

lemma createdShapes_mem : ∀ (gs : List CurveGeom) (m : Nat) (s : SceneShape),
    s ∈ createdShapes m gs →
    m ≤ s.parent ∧ s.id = s.parent + 1 ∧ s.overrideEnabled = false
      ∧ s.overrideColor = 0 := by
  intro gs
  induction gs with
  | nil =>
    intro m s hs
    simp [createdShapes] at hs
  | cons g rest ih =>
    intro m s hs
    rcases (List.mem_cons).mp hs with h | h
    · subst h
      exact ⟨Nat.le_refl m, rfl, rfl, rfl⟩
    · obtain ⟨h1, h2, h3, h4⟩ := ih (m + 2) s h
      exact ⟨by omega, h2, h3, h4⟩

lemma createdShapes_ids_nodup : ∀ (gs : List CurveGeom) (m : Nat),
    ((createdShapes m gs).map (fun s => s.id)).Nodup := by
  intro gs
  induction gs with
  | nil => intro m; simp [createdShapes]
  | cons g rest ih =>
    intro m
    simp only [createdShapes, List.map_cons, List.nodup_cons]
    refine ⟨?_, ih (m + 2)⟩
    intro hmem
    rcases List.mem_map.mp hmem with ⟨s, hs, hid⟩
    obtain ⟨h1, h2, _, _⟩ := createdShapes_mem rest (m + 2) s hs
    omega

lemma finalShapes_mem : ∀ (gs : List CurveGeom) (index m : Nat)
    (ctrlId : Nat) (ctrlName : String) (old_colors : List (Option Int)) (s : SceneShape),
    s ∈ finalShapes ctrlId ctrlName old_colors index m gs → s.parent = ctrlId := by
  intro gs
  induction gs with
  | nil =>
    intro index m ctrlId ctrlName old_colors s hs
    simp [finalShapes] at hs
  | cons g rest ih =>
    intro index m ctrlId ctrlName old_colors s hs
    rcases (List.mem_cons).mp hs with h | h
    · subst h
      rfl
    · exact ih (index + 1) (m + 2) ctrlId ctrlName old_colors s h

lemma create_loop_success_spec (curveOk : CurveGeom → Bool) :
    ∀ (datas : List ShapeData) (scene : Scene),
      (create_loop curveOk scene datas).2.2 = true →
      ∃ geoms, curve_args_list datas = some geoms
        ∧ (create_loop curveOk scene datas).1.shapes
            = scene.shapes ++ createdShapes scene.nextId geoms
        ∧ (create_loop curveOk scene datas).1.nextId
            = scene.nextId + 2 * datas.length
        ∧ (create_loop curveOk scene datas).2.1
            = createdCurves scene.nextId datas.length
        ∧ geoms.length = datas.length := by
  intro datas
  induction datas with
  | nil =>
    intro scene _
    exact ⟨[], rfl, by simp [create_loop, createdShapes], by simp [create_loop],
      by simp [create_loop, createdCurves], rfl⟩
  | cons d rest ih =>
    intro scene hsucc
    rcases hca : curve_args d with _ | geom
    · rw [create_loop, hca] at hsucc
      simp at hsucc
    · by_cases hok : curveOk geom
      · set scene1 : Scene :=
          ⟨scene.shapes ++ [⟨scene.nextId + 1, scene.nextId, false, 0,
            "curveShape" ++ toString (scene.nextId + 1), geom⟩], scene.nextId + 2⟩ with hs1
        have hunfold : create_loop curveOk scene (d :: rest)
            = ((create_loop curveOk scene1 rest).1,
               scene.nextId :: (create_loop curveOk scene1 rest).2.1,
               (create_loop curveOk scene1 rest).2.2) := by
          rw [create_loop, hca]
          simp [hok, hs1]
        rw [hunfold] at hsucc ⊢
        obtain ⟨geoms, hargs, hshapes, hnext, hcurves, hlen⟩ := ih scene1 hsucc
        refine ⟨geom :: geoms, ?_, ?_, ?_, ?_, by simp [hlen]⟩
        · rw [curve_args_list, hca, hargs]
        · rw [hshapes, hs1]
          simp [createdShapes]
        · rw [hnext, hs1]
          dsimp only
          simp only [List.length_cons]
          omega
        · rw [hcurves, hs1]
          simp only [List.length_cons, createdCurves]
      · rw [create_loop, hca] at hsucc
        simp [hok] at hsucc

lemma remove_loop_spec : ∀ (olds : List SceneShape) (scene : Scene),
    (remove_loop scene olds).2 = olds.map capture_color
      ∧ (remove_loop scene olds).1.nextId = scene.nextId
      ∧ (remove_loop scene olds).1.shapes
        = scene.shapes.filter
            (fun s => decide (s.id ∉ olds.map (fun o => o.id))) := by
  intro olds
  induction olds with
  | nil =>
    intro scene
    refine ⟨rfl, rfl, ?_⟩
    simp [remove_loop]
  | cons o rest ih =>
    intro scene
    obtain ⟨hcap, hnext, hshapes⟩ := ih (delete_shape scene o.id)
    refine ⟨?_, ?_, ?_⟩
    · simp only [remove_loop, List.map_cons]
      rw [hcap]
      simp [capture_color]
    · simpa [remove_loop, delete_shape] using hnext
    · simp only [remove_loop]
      rw [hshapes]
      simp only [delete_shape, List.filter_filter]
      apply List.filter_congr
      intro s _
      simp only [List.map_cons, List.mem_cons, bne_iff_ne, ne_eq, decide_not,
        Bool.and_eq_true, decide_eq_true_eq, Bool.not_eq_true]
      rcases Decidable.em (s.id = o.id) with h | h <;>
        rcases Decidable.em (s.id ∈ rest.map (fun o => o.id)) with h2 | h2 <;>
        simp [h, h2]

lemma map_id_of_mem {α : Type} (f : α → α) (l : List α) (h : ∀ a ∈ l, f a = a) :
    l.map f = l := by
  conv_rhs => rw [← List.map_id l]
  exact List.map_congr_left h

lemma update_shapes_append (g : SceneShape → SceneShape) (target : Nat)
    (base created : List SceneShape) (s0 : SceneShape)
    (hbase : ∀ s ∈ base, s.id ≠ target) (hcreated : ∀ s ∈ created, s.id ≠ target)
    (hs0 : s0.id = target) :
    (base ++ s0 :: created).map (fun s => if s.id == target then g s else s)
      = base ++ g s0 :: created := by
  rw [List.map_append, List.map_cons]
  rw [map_id_of_mem _ base (by intro a ha; simp [hbase a ha])]
  rw [map_id_of_mem _ created (by intro a ha; simp [hcreated a ha])]
  simp [hs0]

lemma filter_not_mem_filter_ids (shapes : List SceneShape) (p : SceneShape → Bool)
    (hnd : (shapes.map (fun s => s.id)).Nodup) :
    shapes.filter
        (fun s => decide (s.id ∉ (shapes.filter p).map (fun o => o.id)))
      = shapes.filter (fun s => !(p s)) := by
  apply List.filter_congr
  intro s hs
  rcases hps : p s with _ | _
  · have hnmem : s.id ∉ (shapes.filter p).map (fun o => o.id) := by
      intro hmem
      rcases List.mem_map.mp hmem with ⟨o, ho, hoid⟩
      have ho' := List.mem_filter.mp ho
      have heq : o = s := List.inj_on_of_nodup_map hnd ho'.1 hs hoid
      rw [heq] at ho'
      rw [ho'.2] at hps
      exact Bool.noConfusion hps
    simp [hnmem]
  · have hmem : s.id ∈ (shapes.filter p).map (fun o => o.id) :=
      List.mem_map.mpr ⟨s, List.mem_filter.mpr ⟨hs, hps⟩, rfl⟩
    simp [hmem]

lemma rename_shape_split (base cre : List SceneShape) (s0 : SceneShape) (nid : Nat)
    (nm : String) (hb : ∀ s ∈ base, s.id ≠ s0.id) (hc : ∀ s ∈ cre, s.id ≠ s0.id) :
    rename_shape ⟨base ++ s0 :: cre, nid⟩ s0.id nm
      = ⟨base ++ { s0 with name := nm } :: cre, nid⟩ := by
  simp only [rename_shape]
  congr 1
  rw [List.map_append, List.map_cons]
  rw [map_id_of_mem _ base (by intro a ha; simp [hb a ha])]
  rw [map_id_of_mem _ cre (by intro a ha; simp [hc a ha])]
  simp

lemma parent_shape_split (base cre : List SceneShape) (s0 : SceneShape) (nid : Nat)
    (par : Nat) (hb : ∀ s ∈ base, s.id ≠ s0.id) (hc : ∀ s ∈ cre, s.id ≠ s0.id) :
    parent_shape ⟨base ++ s0 :: cre, nid⟩ s0.id par
      = ⟨base ++ { s0 with parent := par } :: cre, nid⟩ := by
  simp only [parent_shape]
  congr 1
  rw [List.map_append, List.map_cons]
  rw [map_id_of_mem _ base (by intro a ha; simp [hb a ha])]
  rw [map_id_of_mem _ cre (by intro a ha; simp [hc a ha])]
  simp

lemma set_color_shape_split (base cre : List SceneShape) (s0 : SceneShape) (nid : Nat)
    (col : Option Int) (hb : ∀ s ∈ base, s.id ≠ s0.id) (hc : ∀ s ∈ cre, s.id ≠ s0.id) :
    set_color_shape ⟨base ++ s0 :: cre, nid⟩ s0.id col
      = ⟨base ++ (match col with
          | none => { s0 with overrideEnabled := false, overrideColor := 0 }
          | some c => { s0 with overrideEnabled := true, overrideColor := c }) :: cre,
        nid⟩ := by
  simp only [set_color_shape]
  congr 1
  rw [List.map_append, List.map_cons]
  rw [map_id_of_mem _ base (by intro a ha; simp [hb a ha])]
  rw [map_id_of_mem _ cre (by intro a ha; simp [hc a ha])]
  simp

lemma delete_transform_keep (shapes : List SceneShape) (nid t : Nat)
    (h : ∀ s ∈ shapes, s.parent ≠ t) :
    delete_transform ⟨shapes, nid⟩ t = ⟨shapes, nid⟩ := by
  simp only [delete_transform]
  congr 1
  rw [List.filter_eq_self]
  intro s hs
  simp [h s hs]

lemma replace_loop_spec (ctrlId : Nat) (ctrlName : String) (colors : List (Option Int)) :
    ∀ (geoms : List CurveGeom) (m index : Nat) (base : List SceneShape) (nid : Nat),
      ctrlId < m →
      (∀ s ∈ base, s.parent < m ∧ s.id < m + 1) →
      replace_loop ctrlId ctrlName colors ⟨base ++ createdShapes m geoms, nid⟩
          (createdCurves m geoms.length) index
        = (⟨base ++ finalShapes ctrlId ctrlName colors index m geoms, nid⟩, true) := by
  intro geoms
  induction geoms with
  | nil =>
    intro m index base nid _ _
    simp [createdShapes, createdCurves, finalShapes, replace_loop]
  | cons g gs ih =>
    intro m index base nid hctrl hbase
    have hbase_id : ∀ s ∈ base, s.id ≠ m + 1 := by
      intro s hs
      have := (hbase s hs).2
      omega
    have hcre_id : ∀ s ∈ createdShapes (m + 2) gs, s.id ≠ m + 1 := by
      intro s hs
      obtain ⟨h1, h2, _, _⟩ := createdShapes_mem gs (m + 2) s hs
      omega
    have hcre_par : ∀ s ∈ createdShapes (m + 2) gs, s.parent ≠ m := by
      intro s hs
      have := (createdShapes_mem gs (m + 2) s hs).1
      omega
    have hfilter : (base
          ++ (⟨m + 1, m, false, 0, "curveShape" ++ toString (m + 1), g⟩ : SceneShape)
            :: createdShapes (m + 2) gs).filter (fun s => s.parent == m)
        = [⟨m + 1, m, false, 0, "curveShape" ++ toString (m + 1), g⟩] := by
      rw [List.filter_append, List.filter_cons]
      have h1 : base.filter (fun s => s.parent == m) = [] := by
        rw [List.filter_eq_nil_iff]
        intro s hs
        have := (hbase s hs).1
        simp only [beq_iff_eq]
        omega
      have h2 : (createdShapes (m + 2) gs).filter (fun s => s.parent == m) = [] := by
        rw [List.filter_eq_nil_iff]
        intro s hs
        have := hcre_par s hs
        simp only [beq_iff_eq]
        omega
      simp [h1, h2]
    have hshapes0 : createdShapes m (g :: gs)
        = (⟨m + 1, m, false, 0, "curveShape" ++ toString (m + 1), g⟩ : SceneShape)
            :: createdShapes (m + 2) gs := rfl
    have hcurves0 : createdCurves m (g :: gs).length
        = m :: createdCurves (m + 2) gs.length := rfl
    rw [hshapes0, hcurves0]
    simp only [replace_loop]
    rw [hfilter]
    rcases hcol : colors.get? index with _ | (_ | c)
    · -- no captured color at this index: the new shape keeps the default state
      dsimp only
      rw [rename_shape_split base (createdShapes (m + 2) gs)
        (⟨m + 1, m, false, 0, "curveShape" ++ toString (m + 1), g⟩ : SceneShape) nid
        (if index > 0 then ctrlName ++ "Shape" ++ toString index else ctrlName ++ "Shape")
        hbase_id hcre_id]
      dsimp only
      rw [parent_shape_split base (createdShapes (m + 2) gs)
        (⟨m + 1, m, false, 0,
          if index > 0 then ctrlName ++ "Shape" ++ toString index else ctrlName ++ "Shape",
          g⟩ : SceneShape) nid ctrlId hbase_id hcre_id]
      dsimp only
      have hdel : ∀ s ∈ base
          ++ (⟨m + 1, ctrlId, false, 0,
            if index > 0 then ctrlName ++ "Shape" ++ toString index else ctrlName ++ "Shape",
            g⟩ : SceneShape) :: createdShapes (m + 2) gs, s.parent ≠ m := by
        intro s hs
        rcases List.mem_append.mp hs with h | h
        · have := (hbase s h).1
          omega
        · rcases List.mem_cons.mp h with h2 | h2
          · rw [h2]
            show ctrlId ≠ m
            omega
          · exact hcre_par s h2
      rw [delete_transform_keep _ nid m hdel]
      have hb2 : ∀ s ∈ base
          ++ [(⟨m + 1, ctrlId, false, 0,
            if index > 0 then ctrlName ++ "Shape" ++ toString index else ctrlName ++ "Shape",
            g⟩ : SceneShape)], s.parent < m + 2 ∧ s.id < m + 2 + 1 := by
        intro s hs
        rcases List.mem_append.mp hs with h | h
        · have := hbase s h
          omega
        · rw [List.mem_singleton.mp h]
          exact ⟨by show ctrlId < m + 2; omega, by show m + 1 < m + 2 + 1; omega⟩
      have hrec := ih (m + 2) (index + 1)
        (base ++ [(⟨m + 1, ctrlId, false, 0,
          if index > 0 then ctrlName ++ "Shape" ++ toString index else ctrlName ++ "Shape",
          g⟩ : SceneShape)]) nid (by omega) hb2
      rw [List.append_assoc] at hrec
      simp only [List.singleton_append] at hrec
      rw [hrec]
      simp only [finalShapes, hcol]
      simp
    · -- captured None: the restore disables the override
      dsimp only
      rw [rename_shape_split base (createdShapes (m + 2) gs)
        (⟨m + 1, m, false, 0, "curveShape" ++ toString (m + 1), g⟩ : SceneShape) nid
        (if index > 0 then ctrlName ++ "Shape" ++ toString index else ctrlName ++ "Shape")
        hbase_id hcre_id]
      dsimp only
      rw [set_color_shape_split base (createdShapes (m + 2) gs)
        (⟨m + 1, m, false, 0,
          if index > 0 then ctrlName ++ "Shape" ++ toString index else ctrlName ++ "Shape",
          g⟩ : SceneShape) nid none hbase_id hcre_id]
      dsimp only
      rw [parent_shape_split base (createdShapes (m + 2) gs)
        (⟨m + 1, m, false, 0,
          if index > 0 then ctrlName ++ "Shape" ++ toString index else ctrlName ++ "Shape",
          g⟩ : SceneShape) nid ctrlId hbase_id hcre_id]
      dsimp only
      have hdel : ∀ s ∈ base
          ++ (⟨m + 1, ctrlId, false, 0,
            if index > 0 then ctrlName ++ "Shape" ++ toString index else ctrlName ++ "Shape",
            g⟩ : SceneShape) :: createdShapes (m + 2) gs, s.parent ≠ m := by
        intro s hs
        rcases List.mem_append.mp hs with h | h
        · have := (hbase s h).1
          omega
        · rcases List.mem_cons.mp h with h2 | h2
          · rw [h2]
            show ctrlId ≠ m
            omega
          · exact hcre_par s h2
      rw [delete_transform_keep _ nid m hdel]
      have hb2 : ∀ s ∈ base
          ++ [(⟨m + 1, ctrlId, false, 0,
            if index > 0 then ctrlName ++ "Shape" ++ toString index else ctrlName ++ "Shape",
            g⟩ : SceneShape)], s.parent < m + 2 ∧ s.id < m + 2 + 1 := by
        intro s hs
        rcases List.mem_append.mp hs with h | h
        · have := hbase s h
          omega
        · rw [List.mem_singleton.mp h]
          exact ⟨by show ctrlId < m + 2; omega, by show m + 1 < m + 2 + 1; omega⟩
      have hrec := ih (m + 2) (index + 1)
        (base ++ [(⟨m + 1, ctrlId, false, 0,
          if index > 0 then ctrlName ++ "Shape" ++ toString index else ctrlName ++ "Shape",
          g⟩ : SceneShape)]) nid (by omega) hb2
      rw [List.append_assoc] at hrec
      simp only [List.singleton_append] at hrec
      rw [hrec]
      simp only [finalShapes, hcol, restore_state]
      simp
    · -- captured index c: the restore enables the override with c
      dsimp only
      rw [rename_shape_split base (createdShapes (m + 2) gs)
        (⟨m + 1, m, false, 0, "curveShape" ++ toString (m + 1), g⟩ : SceneShape) nid
        (if index > 0 then ctrlName ++ "Shape" ++ toString index else ctrlName ++ "Shape")
        hbase_id hcre_id]
      dsimp only
      rw [set_color_shape_split base (createdShapes (m + 2) gs)
        (⟨m + 1, m, false, 0,
          if index > 0 then ctrlName ++ "Shape" ++ toString index else ctrlName ++ "Shape",
          g⟩ : SceneShape) nid (some c) hbase_id hcre_id]
      dsimp only
      rw [parent_shape_split base (createdShapes (m + 2) gs)
        (⟨m + 1, m, true, c,
          if index > 0 then ctrlName ++ "Shape" ++ toString index else ctrlName ++ "Shape",
          g⟩ : SceneShape) nid ctrlId hbase_id hcre_id]
      dsimp only
      have hdel : ∀ s ∈ base
          ++ (⟨m + 1, ctrlId, true, c,
            if index > 0 then ctrlName ++ "Shape" ++ toString index else ctrlName ++ "Shape",
            g⟩ : SceneShape) :: createdShapes (m + 2) gs, s.parent ≠ m := by
        intro s hs
        rcases List.mem_append.mp hs with h | h
        · have := (hbase s h).1
          omega
        · rcases List.mem_cons.mp h with h2 | h2
          · rw [h2]
            show ctrlId ≠ m
            omega
          · exact hcre_par s h2
      rw [delete_transform_keep _ nid m hdel]
      have hb2 : ∀ s ∈ base
          ++ [(⟨m + 1, ctrlId, true, c,
            if index > 0 then ctrlName ++ "Shape" ++ toString index else ctrlName ++ "Shape",
            g⟩ : SceneShape)], s.parent < m + 2 ∧ s.id < m + 2 + 1 := by
        intro s hs
        rcases List.mem_append.mp hs with h | h
        · have := hbase s h
          omega
        · rw [List.mem_singleton.mp h]
          exact ⟨by show ctrlId < m + 2; omega, by show m + 1 < m + 2 + 1; omega⟩
      have hrec := ih (m + 2) (index + 1)
        (base ++ [(⟨m + 1, ctrlId, true, c,
          if index > 0 then ctrlName ++ "Shape" ++ toString index else ctrlName ++ "Shape",
          g⟩ : SceneShape)]) nid (by omega) hb2
      rw [List.append_assoc] at hrec
      simp only [List.singleton_append] at hrec
      rw [hrec]
      simp only [finalShapes, hcol, restore_state]
      simp

lemma finalShapes_colors (ctrlId : Nat) (ctrlName : String) (colors : List (Option Int)) :
    ∀ (gs : List CurveGeom) (index m : Nat),
      (finalShapes ctrlId ctrlName colors index m gs).map colorState
        = ((colors.drop index).take gs.length).map restore_state
          ++ List.replicate (gs.length - (colors.length - index)) (false, 0) := by
  intro gs
  induction gs with
  | nil =>
    intro index m
    simp [finalShapes]
  | cons g rest ih =>
    intro index m
    simp only [finalShapes, List.map_cons, List.length_cons]
    rw [ih (index + 1) (m + 2)]
    rcases Nat.lt_or_ge index colors.length with hlt | hge
    · have hget : colors.get? index = some (colors.get ⟨index, hlt⟩) :=
        List.get?_eq_get hlt
      have hdrop : colors.drop index
          = colors.get ⟨index, hlt⟩ :: colors.drop (index + 1) := by
        rw [List.drop_eq_getElem_cons hlt]
        rfl
      have hcount : rest.length - (colors.length - (index + 1))
          = rest.length + 1 - (colors.length - index) := by omega
      rw [hdrop, List.take_succ_cons, List.map_cons, hcount]
      simp only [hget, colorState]
      simp
    · have hget : colors.get? index = none := by
        rw [List.get?_eq_none]
        omega
      have hd2 : colors.drop (index + 1) = [] := by
        apply List.drop_eq_nil_of_le
        omega
      have hd1 : colors.drop index = [] := by
        apply List.drop_eq_nil_of_le
        omega
      have hc1 : colors.length - index = 0 := by omega
      have hc2 : colors.length - (index + 1) = 0 := by omega
      rw [hd1, hd2, hc1, hc2]
      simp only [hget, colorState]
      simp [List.replicate_succ]

lemma scene1_ids_nodup (scene : Scene) (geoms : List CurveGeom)
    (hnd : (scene.shapes.map (fun s => s.id)).Nodup)
    (hlt : ∀ s ∈ scene.shapes, s.id < scene.nextId) :
    ((scene.shapes ++ createdShapes scene.nextId geoms).map (fun s => s.id)).Nodup := by
  rw [List.map_append, List.nodup_append]
  refine ⟨hnd, createdShapes_ids_nodup geoms scene.nextId, ?_⟩
  intro a ha hb
  rcases List.mem_map.mp ha with ⟨s, hs, rfl⟩
  rcases List.mem_map.mp hb with ⟨t, ht, hid⟩
  have h1 := hlt s hs
  obtain ⟨hp, hid2, _, _⟩ := createdShapes_mem geoms scene.nextId t ht
  omega

/-- C5: with n records and m captured old color states, a successful
set_shapes_data leaves under the control exactly the new shapes, whose color
states restore the old ones positionally: for i below min(n, m) the i-th new
shape carries the i-th old state (a None state meaning override disabled), new
shapes from position m onwards keep the default state (no color restore), old
states from position n onwards are discarded, and no out-of-range access occurs
for any mismatch of n and m. -/
theorem set_shapes_data_positional_color_restore (curveOk : CurveGeom → Bool)
    (ctrlId : Nat) (ctrlName : String) (shapes_data : List ShapeData) (scene : Scene)
    (hwf : SceneWF scene ctrlId)
    (hok : (set_shapes_data curveOk ctrlId ctrlName shapes_data scene).2 = true) :
    ((set_shapes_data curveOk ctrlId ctrlName shapes_data scene).1.shapes.filter
        (fun s => s.parent == ctrlId)).map colorState
      = (((scene.shapes.filter (fun s => s.parent == ctrlId)).map capture_color).take
            shapes_data.length).map restore_state
        ++ List.replicate
            (shapes_data.length
              - (scene.shapes.filter (fun s => s.parent == ctrlId)).length)
            (false, 0) := by
  obtain ⟨hctrl, hbounds, hnd⟩ := hwf
  rcases hcr : (create_loop curveOk scene shapes_data).2.2 with _ | _
  · exfalso
    have hres : (set_shapes_data curveOk ctrlId ctrlName shapes_data scene).2 = false := by
      simp [set_shapes_data, hcr]
    rw [hres] at hok
    exact Bool.noConfusion hok
  · obtain ⟨geoms, hargs, hshapes1, hnext1, hcurves1, hlen⟩ :=
      create_loop_success_spec curveOk shapes_data scene hcr
    have hcre_not_ctrl : (createdShapes scene.nextId geoms).filter
        (fun s => s.parent == ctrlId) = [] := by
      rw [List.filter_eq_nil_iff]
      intro s hs
      have := (createdShapes_mem geoms scene.nextId s hs).1
      simp only [beq_iff_eq]
      omega
    have holds : (create_loop curveOk scene shapes_data).1.shapes.filter
          (fun s => s.parent == ctrlId)
        = scene.shapes.filter (fun s => s.parent == ctrlId) := by
      rw [hshapes1, List.filter_append, hcre_not_ctrl, List.append_nil]
    obtain ⟨hcolors, hnext2, hshapes2⟩ :=
      remove_loop_spec ((create_loop curveOk scene shapes_data).1.shapes.filter
        (fun s => s.parent == ctrlId)) (create_loop curveOk scene shapes_data).1
    have hnd1 : ((create_loop curveOk scene shapes_data).1.shapes.map
        (fun s => s.id)).Nodup := by
      rw [hshapes1]
      exact scene1_ids_nodup scene geoms hnd (fun s hs => (hbounds s hs).1)
    have hshapes2' : (remove_loop (create_loop curveOk scene shapes_data).1
          ((create_loop curveOk scene shapes_data).1.shapes.filter
            (fun s => s.parent == ctrlId))).1.shapes
        = (create_loop curveOk scene shapes_data).1.shapes.filter
            (fun s => !(s.parent == ctrlId)) := by
      rw [hshapes2]
      exact filter_not_mem_filter_ids (create_loop curveOk scene shapes_data).1.shapes
        _ hnd1
    have hkeptsplit : (create_loop curveOk scene shapes_data).1.shapes.filter
          (fun s => !(s.parent == ctrlId))
        = scene.shapes.filter (fun s => !(s.parent == ctrlId))
            ++ createdShapes scene.nextId geoms := by
      rw [hshapes1, List.filter_append]
      congr 1
      rw [List.filter_eq_self]
      intro s hs
      have := (createdShapes_mem geoms scene.nextId s hs).1
      simp only [Bool.not_eq_true', beq_eq_false_iff_ne, ne_eq]
      omega
    have hscene2 : (remove_loop (create_loop curveOk scene shapes_data).1
          ((create_loop curveOk scene shapes_data).1.shapes.filter
            (fun s => s.parent == ctrlId))).1
        = ⟨scene.shapes.filter (fun s => !(s.parent == ctrlId))
            ++ createdShapes scene.nextId geoms,
           (create_loop curveOk scene shapes_data).1.nextId⟩ := by
      have he : (remove_loop (create_loop curveOk scene shapes_data).1
            ((create_loop curveOk scene shapes_data).1.shapes.filter
              (fun s => s.parent == ctrlId))).1
          = ⟨(remove_loop (create_loop curveOk scene shapes_data).1
              ((create_loop curveOk scene shapes_data).1.shapes.filter
                (fun s => s.parent == ctrlId))).1.shapes,
             (remove_loop (create_loop curveOk scene shapes_data).1
              ((create_loop curveOk scene shapes_data).1.shapes.filter
                (fun s => s.parent == ctrlId))).1.nextId⟩ := rfl
      rw [he, hshapes2', hkeptsplit, hnext2]
    have hresult : set_shapes_data curveOk ctrlId ctrlName shapes_data scene
        = replace_loop ctrlId ctrlName
            ((remove_loop (create_loop curveOk scene shapes_data).1
              ((create_loop curveOk scene shapes_data).1.shapes.filter
                (fun s => s.parent == ctrlId))).2)
            ((remove_loop (create_loop curveOk scene shapes_data).1
              ((create_loop curveOk scene shapes_data).1.shapes.filter
                (fun s => s.parent == ctrlId))).1)
            ((create_loop curveOk scene shapes_data).2.1) 0 := by
      simp only [set_shapes_data, hcr, if_true]
    have hbase' : ∀ s ∈ scene.shapes.filter (fun s => !(s.parent == ctrlId)),
        s.parent < scene.nextId ∧ s.id < scene.nextId + 1 := by
      intro s hs
      have hmem := List.mem_of_mem_filter hs
      have := hbounds s hmem
      omega
    have hcurves' : (create_loop curveOk scene shapes_data).2.1
        = createdCurves scene.nextId geoms.length := by
      rw [hcurves1, hlen]
    have hreplace := replace_loop_spec ctrlId ctrlName
      ((remove_loop (create_loop curveOk scene shapes_data).1
        ((create_loop curveOk scene shapes_data).1.shapes.filter
          (fun s => s.parent == ctrlId))).2)
      geoms scene.nextId 0
      (scene.shapes.filter (fun s => !(s.parent == ctrlId)))
      ((create_loop curveOk scene shapes_data).1.nextId) hctrl hbase'
    have hfinal : set_shapes_data curveOk ctrlId ctrlName shapes_data scene
        = (⟨scene.shapes.filter (fun s => !(s.parent == ctrlId))
            ++ finalShapes ctrlId ctrlName
                ((remove_loop (create_loop curveOk scene shapes_data).1
                  ((create_loop curveOk scene shapes_data).1.shapes.filter
                    (fun s => s.parent == ctrlId))).2)
                0 scene.nextId geoms,
           (create_loop curveOk scene shapes_data).1.nextId⟩, true) := by
      rw [hresult, hscene2, hcurves', hreplace]
    rw [hfinal]
    have hkept_f : (scene.shapes.filter (fun s => !(s.parent == ctrlId))).filter
        (fun s => s.parent == ctrlId) = [] := by
      rw [List.filter_filter, List.filter_eq_nil_iff]
      intro s hs
      simp
    have hfin_f : (finalShapes ctrlId ctrlName
          ((remove_loop (create_loop curveOk scene shapes_data).1
            ((create_loop curveOk scene shapes_data).1.shapes.filter
              (fun s => s.parent == ctrlId))).2)
          0 scene.nextId geoms).filter (fun s => s.parent == ctrlId)
        = finalShapes ctrlId ctrlName
            ((remove_loop (create_loop curveOk scene shapes_data).1
              ((create_loop curveOk scene shapes_data).1.shapes.filter
                (fun s => s.parent == ctrlId))).2)
            0 scene.nextId geoms := by
      rw [List.filter_eq_self]
      intro s hs
      have := finalShapes_mem geoms 0 scene.nextId ctrlId ctrlName _ s hs
      simp [this]
    have hcolors' : (remove_loop (create_loop curveOk scene shapes_data).1
          ((create_loop curveOk scene shapes_data).1.shapes.filter
            (fun s => s.parent == ctrlId))).2
        = (scene.shapes.filter (fun s => s.parent == ctrlId)).map capture_color := by
      rw [hcolors, holds]
    simp only [List.filter_append, hkept_f, hfin_f, List.nil_append]
    rw [finalShapes_colors, hcolors', hlen]
    simp [List.length_map]

/-- A one-point open geometry used by the C5 witness scene. -/
def wg : CurveGeom := ⟨false, [⟨0, 0, 0⟩], 1, [0]⟩

/-- The C5 witness scene: the control (identity 0) owns three shapes with color
states 5, None and 12. -/
def wscene2 : Scene :=
  ⟨[⟨1, 0, true, 5, "aShape", wg⟩, ⟨2, 0, false, 0, "aShape1", wg⟩,
    ⟨3, 0, true, 12, "aShape2", wg⟩], 10⟩

/-- Two open records for the C5 witness. -/
def wdatas2 : List ShapeData :=
  [⟨1, 0, [⟨0, 0, 0⟩, ⟨1, 0, 0⟩], [0, 1]⟩, ⟨1, 0, [⟨2, 0, 0⟩, ⟨3, 0, 0⟩], [0, 1]⟩]

/-- A constructor oracle that accepts every curve. -/
def alwaysOk : CurveGeom → Bool := fun _ => true

/-- Witness for C5 at the spec example: three old colors 5, None, 12 and two new
shapes; the new shapes end with color states 5 and None. -/
theorem set_shapes_data_positional_color_restore_witness :
    SceneWF wscene2 0
      ∧ (set_shapes_data alwaysOk 0 "ctl" wdatas2 wscene2).2 = true
      ∧ ((set_shapes_data alwaysOk 0 "ctl" wdatas2 wscene2).1.shapes.filter
            (fun s => s.parent == 0)).map colorState
          = (((wscene2.shapes.filter (fun s => s.parent == 0)).map capture_color).take
                wdatas2.length).map restore_state
            ++ List.replicate
                (wdatas2.length
                  - (wscene2.shapes.filter (fun s => s.parent == 0)).length)
                (false, 0) :=
  ⟨by unfold SceneWF; decide, by decide,
    set_shapes_data_positional_color_restore alwaysOk 0 "ctl" wdatas2 wscene2
      (by unfold SceneWF; decide) (by decide)⟩

/- ----------------------------------------------------------------------------
C9: the create phase of set_shapes_data over the Python list heap
---------------------------------------------------------------------------- -/

/-- A shape record as held in memory and shared between the successive
set_shapes_data calls of replace_shapes_on_selected: the record's point list is
a Python list object, modelled as a reference into a store of lists so that
in-place mutation is observable. -/
structure ShapeDataRef where
  degree : Nat
  form : Int
  point : Nat
  knot : List ℚ
deriving DecidableEq

/-- The heap of Python list objects holding point lists; a reference is an index
into this store. -/
abbrev Store : Type := List (List Point3)

/-- The periodic extension loop of set_shapes_data acting on heap entry r
(core.py lines 231-232): each iteration reads entry r, reads its element at the
running index and appends that element to entry r in place. -/
def heap_append_self : Store → Nat → Nat → Nat → Option Store
  | st, _, _, 0 => some st
  | st, r, idx, fuel + 1 =>
    match st.get? r with
    | none => none
    | some lst =>
      match lst.get? idx with
      | none => none
      | some p => heap_append_self (st.set r (lst ++ [p])) r (idx + 1) fuel

/-- The create phase of set_shapes_data over the heap (core.py lines 222-240),
collecting the argument tuple passed to cmds.curve for each record: the copy in
points = shape_data['point'].copy() allocates a fresh list object with the same
contents at the end of the store, and the periodic extension then mutates only
that fresh object, never the record's own list. -/
def create_curves_heap : Store → List ShapeDataRef → Option (Store × List CurveGeom)
  | st, [] => some (st, [])
  | st, shape_data :: rest =>
    match st.get? shape_data.point with
    | none => none
    | some orig =>
      match (if 0 < shape_data.form
             then heap_append_self (st ++ [orig]) st.length 0 shape_data.degree
             else some (st ++ [orig])) with
      | none => none
      | some st2 =>
        match st2.get? st.length with
        | none => none
        | some points =>
          match create_curves_heap st2 rest with
          | none => none
          | some (st3, curves) =>
            some (st3,
              ⟨decide (0 < shape_data.form), points, shape_data.degree,
                shape_data.knot⟩ :: curves)

/-- replace_shapes_on_selected (core.py lines 106-118) fetches the shape data of
the source once and applies set_shapes_data to every destination in turn; only
the create phase reads the records, so its heap model runs once per destination,
collecting the curves each destination receives. -/
def apply_to_destinations :
    Store → List ShapeDataRef → Nat → Option (Store × List (List CurveGeom))
  | st, _, 0 => some (st, [])
  | st, recs, k + 1 =>
    match create_curves_heap st recs with
    | none => none
    | some (st1, curves) =>
      match apply_to_destinations st1 recs k with
      | none => none
      | some (st2, all) => some (st2, curves :: all)

lemma heap_append_self_untouched : ∀ (fuel idx : Nat) (st : Store) (r : Nat)
    (st' : Store), heap_append_self st r idx fuel = some st' →
    st'.length = st.length ∧ ∀ i, i ≠ r → st'.get? i = st.get? i := by
  intro fuel
  induction fuel with
  | zero =>
    intro idx st r st' h
    have : st = st' := Option.some.inj h
    subst this
    exact ⟨rfl, fun i _ => rfl⟩
  | succ fuel ih =>
    intro idx st r st' h
    simp only [heap_append_self] at h
    rcases h1 : st.get? r with _ | lst
    · simp only [h1] at h
      exact Option.noConfusion h
    · simp only [h1] at h
      rcases h2 : lst.get? idx with _ | p
      · simp only [h2] at h
        exact Option.noConfusion h
      · simp only [h2] at h
        obtain ⟨hlen, hget⟩ := ih (idx + 1) (st.set r (lst ++ [p])) r st' h
        refine ⟨by rw [hlen]; simp, ?_⟩
        intro i hi
        rw [hget i hi, List.get?_set_ne _ _ (fun he => hi he.symm)]

lemma set_same : ∀ (st : Store) (r : Nat) (lst : List Point3),
    st.get? r = some lst → st.set r lst = st := by
  intro st
  induction st with
  | nil =>
    intro r lst h
    simp at h
  | cons a rest ih =>
    intro r lst h
    cases r with
    | zero =>
      simp only [List.get?] at h
      simp [List.set, Option.some.inj h]
    | succ n =>
      simp only [List.get?] at h
      simp [List.set, ih n lst h]

lemma heap_append_self_eq_pure : ∀ (fuel idx : Nat) (st : Store) (r : Nat)
    (lst : List Point3), st.get? r = some lst →
    heap_append_self st r idx fuel
      = (append_self lst idx fuel).map (fun res => st.set r res) := by
  intro fuel
  induction fuel with
  | zero =>
    intro idx st r lst h
    simp [heap_append_self, append_self, set_same st r lst h]
  | succ fuel ih =>
    intro idx st r lst h
    have hr : r < st.length := by
      rcases List.get?_eq_some.mp h with ⟨hlt, _⟩
      exact hlt
    simp only [heap_append_self, append_self, h]
    rcases h2 : lst.get? idx with _ | p
    · simp
    · simp only []
      have hset : (st.set r (lst ++ [p])).get? r = some (lst ++ [p]) :=
        List.get?_set_eq_of_lt _ (by simpa using hr)
      rw [ih (idx + 1) (st.set r (lst ++ [p])) r (lst ++ [p]) hset]
      cases append_self (lst ++ [p]) (idx + 1) fuel <;> simp [List.set_set]

lemma create_curves_heap_preserves : ∀ (recs : List ShapeDataRef) (st st' : Store)
    (curves : List CurveGeom), create_curves_heap st recs = some (st', curves) →
    st.length ≤ st'.length ∧ ∀ i < st.length, st'.get? i = st.get? i := by
  intro recs
  induction recs with
  | nil =>
    intro st st' curves h
    simp only [create_curves_heap] at h
    obtain ⟨h1, h2⟩ := Prod.mk.injEq .. ▸ Option.some.inj h
    subst h1
    exact ⟨Nat.le_refl _, fun i _ => rfl⟩
  | cons d rest ih =>
    intro st st' curves h
    simp only [create_curves_heap] at h
    rcases h1 : st.get? d.point with _ | orig
    · simp only [h1] at h
      exact Option.noConfusion h
    · simp only [h1] at h
      rcases h2 : (if 0 < d.form
          then heap_append_self (st ++ [orig]) st.length 0 d.degree
          else some (st ++ [orig])) with _ | st2
      · simp only [h2] at h
        exact Option.noConfusion h
      · simp only [h2] at h
        rcases h3 : st2.get? st.length with _ | points
        · simp only [h3] at h
          exact Option.noConfusion h
        · simp only [h3] at h
          rcases h4 : create_curves_heap st2 rest with _ | res
          · simp only [h4] at h
            exact Option.noConfusion h
          · rcases res with ⟨st3, cs⟩
            simp only [h4] at h
            obtain ⟨heq1, heq2⟩ := Prod.mk.injEq .. ▸ Option.some.inj h
            subst heq1
            have hst2 : st.length + 1 ≤ st2.length
                ∧ ∀ i < st.length, st2.get? i = st.get? i := by
              by_cases hform : 0 < d.form
              · rw [if_pos hform] at h2
                obtain ⟨hlen, hget⟩ :=
                  heap_append_self_untouched d.degree 0 (st ++ [orig]) st.length st2 h2
                constructor
                · rw [hlen]
                  simp
                · intro i hi
                  rw [hget i (by omega), List.get?_append hi]
              · rw [if_neg hform] at h2
                have : st ++ [orig] = st2 := Option.some.inj h2
                subst this
                constructor
                · simp
                · intro i hi
                  rw [List.get?_append hi]
            obtain ⟨hle2, hget2⟩ := hst2
            obtain ⟨hle3, hget3⟩ := ih st2 st3 cs h4
            constructor
            · omega
            · intro i hi
              rw [hget3 i (by omega), hget2 i hi]

lemma create_curves_heap_deterministic : ∀ (recs : List ShapeDataRef) (st t : Store),
    (∀ d ∈ recs, d.point < st.length ∧ d.point < t.length
      ∧ st.get? d.point = t.get? d.point) →
    (create_curves_heap st recs).map (fun res => res.2)
      = (create_curves_heap t recs).map (fun res => res.2) := by
  intro recs
  induction recs with
  | nil =>
    intro st t _
    rfl
  | cons d rest ih =>
    intro st t hag
    obtain ⟨hdst, hdt, hdeq⟩ := hag d (by simp)
    rcases h1 : st.get? d.point with _ | orig
    · rw [List.get?_eq_get hdst] at h1
      exact Option.noConfusion h1
    · have h1t : t.get? d.point = some orig := by rw [← hdeq, h1]
      have hs1 : (st ++ [orig]).get? st.length = some orig :=
        List.get?_concat_length st orig
      have ht1 : (t ++ [orig]).get? t.length = some orig :=
        List.get?_concat_length t orig
      have hlift_s : (if 0 < d.form
            then heap_append_self (st ++ [orig]) st.length 0 d.degree
            else some (st ++ [orig]))
          = (if 0 < d.form then append_self orig 0 d.degree else some orig).map
              (fun res => (st ++ [orig]).set st.length res) := by
        by_cases hform : 0 < d.form
        · simp only [if_pos hform]
          exact heap_append_self_eq_pure d.degree 0 (st ++ [orig]) st.length orig hs1
        · simp only [if_neg hform]
          exact (congrArg some (set_same _ _ _ hs1)).symm
      have hlift_t : (if 0 < d.form
            then heap_append_self (t ++ [orig]) t.length 0 d.degree
            else some (t ++ [orig]))
          = (if 0 < d.form then append_self orig 0 d.degree else some orig).map
              (fun res => (t ++ [orig]).set t.length res) := by
        by_cases hform : 0 < d.form
        · simp only [if_pos hform]
          exact heap_append_self_eq_pure d.degree 0 (t ++ [orig]) t.length orig ht1
        · simp only [if_neg hform]
          exact (congrArg some (set_same _ _ _ ht1)).symm
      simp only [create_curves_heap, h1, h1t, hlift_s, hlift_t]
      rcases hps : (if 0 < d.form then append_self orig 0 d.degree else some orig)
          with _ | res
      · rfl
      · simp only [Option.map_some']
        have hgs : ((st ++ [orig]).set st.length res).get? st.length = some res :=
          List.get?_set_eq_of_lt _ (by simp)
        have hgt : ((t ++ [orig]).set t.length res).get? t.length = some res :=
          List.get?_set_eq_of_lt _ (by simp)
        simp only [hgs, hgt]
        have hag' : ∀ d' ∈ rest,
            d'.point < ((st ++ [orig]).set st.length res).length
              ∧ d'.point < ((t ++ [orig]).set t.length res).length
              ∧ ((st ++ [orig]).set st.length res).get? d'.point
                  = ((t ++ [orig]).set t.length res).get? d'.point := by
          intro d' hd'
          obtain ⟨ha, hb, hc⟩ := hag d' (by simp [hd'])
          refine ⟨by simp; omega, by simp; omega, ?_⟩
          rw [List.get?_set_ne _ _ (by omega), List.get?_set_ne _ _ (by omega)]
          rw [List.get?_append ha, List.get?_append hb]
          exact hc
        have hih := ih ((st ++ [orig]).set st.length res)
          ((t ++ [orig]).set t.length res) hag'
        rcases hcs : create_curves_heap ((st ++ [orig]).set st.length res) rest
            with _ | p3
        · rw [hcs] at hih
          rcases hct : create_curves_heap ((t ++ [orig]).set t.length res) rest
              with _ | q3
          · simp
          · rw [hct] at hih
            simp at hih
        · rcases p3 with ⟨st3, cs⟩
          rw [hcs] at hih
          rcases hct : create_curves_heap ((t ++ [orig]).set t.length res) rest
              with _ | q3
          · rw [hct] at hih
            simp at hih
          · rcases q3 with ⟨t3, cs'⟩
            rw [hct] at hih
            have hcs2 : cs = cs' := by
              simpa using hih
            simp [hcs2]

lemma apply_to_destinations_replicate (recs : List ShapeDataRef) (st0 : Store)
    (curves : List CurveGeom)
    (hvalid0 : ∀ d ∈ recs, d.point < st0.length)
    (hrun0 : (create_curves_heap st0 recs).map (fun res => res.2) = some curves) :
    ∀ (k : Nat) (u : Store),
      (∀ d ∈ recs, d.point < u.length ∧ u.get? d.point = st0.get? d.point) →
      (apply_to_destinations u recs k).map (fun res => res.2)
        = some (List.replicate k curves) := by
  intro k
  induction k with
  | zero =>
    intro u _
    simp [apply_to_destinations]
  | succ k ih =>
    intro u hu
    have hdet := create_curves_heap_deterministic recs u st0
      (fun d hd => ⟨(hu d hd).1, hvalid0 d hd, (hu d hd).2⟩)
    rw [hrun0] at hdet
    rcases hcu : create_curves_heap u recs with _ | res
    · rw [hcu] at hdet
      simp at hdet
    · rcases res with ⟨u1, cs⟩
      rw [hcu] at hdet
      simp only [Option.map_some'] at hdet
      have hcseq : cs = curves := by simpa using hdet
      obtain ⟨hle, hpres⟩ := create_curves_heap_preserves recs u u1 cs hcu
      have hu1 : ∀ d ∈ recs, d.point < u1.length ∧ u1.get? d.point = st0.get? d.point := by
        intro d hd
        refine ⟨by have := (hu d hd).1; omega, ?_⟩
        rw [hpres d.point (hu d hd).1, (hu d hd).2]
      have hrec := ih u1 hu1
      simp only [apply_to_destinations, hcu]
      rcases hap : apply_to_destinations u1 recs k with _ | res2
      · rw [hap] at hrec
        simp at hrec
      · rcases res2 with ⟨u2, all⟩
        rw [hap] at hrec
        simp only [Option.map_some'] at hrec
        have hall : all = List.replicate k curves := by simpa using hrec
        simp [hall, hcseq, List.replicate_succ]

/-- C9: the create phase of set_shapes_data never mutates the shape records
passed to it: the point list of each record is copied into a fresh heap object
before the periodic extension appends points, so every heap entry existing
before the call, the records' own point lists included, is unchanged afterwards;
consequently running the same record sequence again from the resulting heap
constructs the identical curves, and iterating it over any number of
destinations, as replace_shapes_on_selected does, gives every destination the
same curve list. -/
theorem create_curves_heap_no_record_mutation (st : Store) (recs : List ShapeDataRef)
    (st' : Store) (curves : List CurveGeom)
    (hvalid : ∀ d ∈ recs, d.point < st.length)
    (hrun : create_curves_heap st recs = some (st', curves)) :
    (∀ i < st.length, st'.get? i = st.get? i)
      ∧ (create_curves_heap st' recs).map (fun res => res.2) = some curves
      ∧ ∀ k, (apply_to_destinations st recs k).map (fun res => res.2)
          = some (List.replicate k curves) := by
  obtain ⟨hle, hpres⟩ := create_curves_heap_preserves recs st st' curves hrun
  have hrun0 : (create_curves_heap st recs).map (fun res => res.2) = some curves := by
    rw [hrun]
    rfl
  refine ⟨hpres, ?_, ?_⟩
  · have hdet := create_curves_heap_deterministic recs st' st
      (fun d hd => ⟨by have := hvalid d hd; omega, hvalid d hd,
        hpres d.point (hvalid d hd)⟩)
    rw [hdet, hrun]
    rfl
  · intro k
    exact apply_to_destinations_replicate recs st curves hvalid hrun0 k st
      (fun d hd => ⟨hvalid d hd, rfl⟩)

/-- The C9 witness heap: one record list object with three points. -/
def wstore : Store := [[⟨0, 0, 0⟩, ⟨1, 0, 0⟩, ⟨2, 0, 0⟩]]

/-- The C9 witness records: one periodic record (form 2, degree 1) whose point
list is heap entry 0. -/
def wrecs : List ShapeDataRef := [⟨1, 2, 0, [0, 1, 2, 3]⟩]

/-- The heap after the C9 witness run: the record's list object is untouched and
the fresh copy carries the periodic extension. -/
def wstore' : Store :=
  [[⟨0, 0, 0⟩, ⟨1, 0, 0⟩, ⟨2, 0, 0⟩],
   [⟨0, 0, 0⟩, ⟨1, 0, 0⟩, ⟨2, 0, 0⟩, ⟨0, 0, 0⟩]]

/-- The curves the C9 witness run constructs. -/
def wcurves : List CurveGeom :=
  [⟨true, [⟨0, 0, 0⟩, ⟨1, 0, 0⟩, ⟨2, 0, 0⟩, ⟨0, 0, 0⟩], 1, [0, 1, 2, 3]⟩]

/-- Witness for C9 at a concrete heap, record and run. -/
theorem create_curves_heap_no_record_mutation_witness :
    (∀ d ∈ wrecs, d.point < wstore.length)
      ∧ create_curves_heap wstore wrecs = some (wstore', wcurves)
      ∧ ((∀ i < wstore.length, wstore'.get? i = wstore.get? i)
        ∧ (create_curves_heap wstore' wrecs).map (fun res => res.2) = some wcurves
        ∧ ∀ k, (apply_to_destinations wstore wrecs k).map (fun res => res.2)
            = some (List.replicate k wcurves)) :=
  ⟨by decide, by decide,
    create_curves_heap_no_record_mutation wstore wrecs wstore' wcurves (by decide)
      (by decide)⟩
